import Mathlib

/-!
# gin-admin: menu storage model and login routes

Shallow embedding of `src/model/gorm/menu/m_menu.go` (the nine operations of
`menu.Model`) and of `src/web/router/r_api_login.go` (`APILoginRouter`).

Conventions of the embedding:

* a Go `error` is an `Option String` (`none` is `nil`, `some msg` an error with
  that message); a Go nil slice is the empty list; a Go nil pointer result is
  `none`;
* a `*gorm.DB` statement under construction is the record `gorm.DB` of the
  clauses attached to it so far, each `Where` kept as the SQL template and the
  values bound to its placeholders, exactly as written in the source;
* the call that reaches the database (`FindPage`, `Find`, `FindOne`, `Check`,
  `Create`, `Updates`, `Update`, `Delete`) is an argument of the operation that
  makes it, so every statement quantified over it holds for any database;
* the tracing spans (`logger.StartSpan`, `span.Errorf`, `span.Finish`) only
  write to the logger and are left out: the text of the underlying error goes
  there and nowhere else.
-/

namespace GinAdmin

/-- Go `error` value: `none` is nil, `some msg` an error carrying `msg`. -/
abbrev Error := Option String

namespace errors

/-- `errors.New(msg)`: an error whose message is `msg`. -/
def New (msg : String) : Error := some msg

end errors

/-! ## Package `schema`: the DTOs handed in and out of the model -/

namespace schema

/-- Modelled from the spec: the DTO `schema.Menu`, whose declaration is absent
from the sources; its fields mirror the columns the model names in its
queries (`id`, `record_id`, `code`, `name`, `type`, `sequence`, `level_code`,
`parent_id`, `is_hide`, `creator`). -/
structure Menu where
  ID : Nat
  RecordID : String
  Code : String
  Name : String
  Type_ : Int
  Sequence : Int
  LevelCode : String
  ParentID : String
  IsHide : Int
  Creator : String
deriving DecidableEq, Repr

/-- Modelled from the spec: `schema.MenuPageQueryParam`, declared outside the
sources; the four fields are those `QueryPage` reads. -/
structure MenuPageQueryParam where
  Code : String
  Name : String
  Type_ : Int
  ParentID : String
deriving DecidableEq, Repr

/-- Modelled from the spec: `schema.MenuListQueryParam`, declared outside the
sources; the five fields are those `QueryList` reads. -/
structure MenuListQueryParam where
  LevelCode : String
  LevelCodes : List String
  Types : List Int
  IsHide : Int
  ParentID : String
deriving DecidableEq, Repr

end schema

/-! ## Package `gorm`: the statement builder -/

namespace gorm

/-- A value bound to a `?` placeholder. -/
inductive Arg where
  | str (s : String)
  | int (i : Int)
  | strs (l : List String)
  | ints (l : List Int)
deriving DecidableEq, Repr

/-- One `Where(query, args...)` clause: the SQL template and its values. -/
structure Cond where
  query : String
  args : List Arg
deriving DecidableEq, Repr

/-- A `*gorm.DB` statement: the connection it runs on, the model it is about
and the clauses attached so far, in the order they were attached. -/
structure DB where
  conn : Nat
  value : String
  wheres : List Cond
  orders : List String
  omits : List String
deriving DecidableEq, Repr

namespace DB

/-- `db.Model(value)`: the statement is about the table of `value`. -/
def Model (s : DB) (value : String) : DB := { s with value := value }

/-- `db.Where(query, args...)`: attaches one more condition. -/
def Where (s : DB) (query : String) (args : List Arg) : DB :=
  { s with wheres := s.wheres ++ [⟨query, args⟩] }

/-- `db.Order(value)`: attaches one more ORDER BY item list. -/
def Order (s : DB) (value : String) : DB :=
  { s with orders := s.orders ++ [value] }

/-- `db.Omit(columns...)`: the columns an update must leave out. -/
def Omit (s : DB) (columns : List String) : DB :=
  { s with omits := columns }

end DB

end gorm

/-! ## Packages `gormplus`, `context`, `common`, `util` -/

namespace gormplus

/-- Modelled from the spec: the handle `*gormplus.DB` (declared outside the
sources): an open connection or transaction, identified by a number; a
statement started from it carries no clause yet. -/
structure DB where
  id : Nat
deriving DecidableEq, Repr

/-- The empty statement of a connection. -/
def DB.session (d : DB) : gorm.DB :=
  { conn := d.id, value := "", wheres := [], orders := [], omits := [] }

end gormplus

/-- Modelled from the spec: what the operations read from a `context.Context`:
the transaction stored in it, if any, and the value stored under the user-ID
key, if any. -/
structure Context where
  trans : Option gormplus.DB
  userID : Option String
deriving DecidableEq, Repr

namespace gcontext

/-- Modelled from the spec: `gcontext.FromUserID` (absent from the sources)
returns the user ID held in the context and whether there is one; the empty
string and `false` when the context holds none. -/
def FromUserID (ctx : Context) : String × Bool :=
  match ctx.userID with
  | some s => (s, s != "")
  | none => ("", false)

end gcontext

namespace common

/-- Modelled from the spec: `common.GetTrans` (absent from the sources) gives
the transaction of the context when there is one and the default connection
otherwise. -/
def GetTrans (ctx : Context) (defaultDB : gormplus.DB) : gorm.DB :=
  match ctx.trans with
  | some tx => tx.session
  | none => defaultDB.session

end common

/-! ## Package `menu`: the entity and the storage model -/

namespace menu

/-- Modelled from the spec: the entity `Menu` (its declaration is absent from
the sources); one field per column the model names in its queries. -/
structure Menu where
  ID : Nat
  RecordID : String
  Code : String
  Name : String
  Type_ : Int
  Sequence : Int
  LevelCode : String
  ParentID : String
  IsHide : Int
  Creator : String
deriving DecidableEq, Repr

/-- The zero value `Menu{}`. -/
def Menu.zero : Menu :=
  { ID := 0, RecordID := "", Code := "", Name := "", Type_ := 0, Sequence := 0,
    LevelCode := "", ParentID := "", IsHide := 0, Creator := "" }

end menu

namespace util

/-- Modelled from the spec: `util.FillStruct(src, dst)` (absent from the
sources) copies every field of `src` into the field of `dst` with the same
name; here from the entity to the DTO. -/
def FillStruct (src : menu.Menu) : schema.Menu :=
  { ID := src.ID, RecordID := src.RecordID, Code := src.Code, Name := src.Name,
    Type_ := src.Type_, Sequence := src.Sequence, LevelCode := src.LevelCode,
    ParentID := src.ParentID, IsHide := src.IsHide, Creator := src.Creator }

/-- Modelled from the spec: the same `util.FillStruct`, called with a DTO as
`src` and a fresh entity `new(Menu)` as `dst`. -/
def FillEntity (src : schema.Menu) : menu.Menu :=
  { ID := src.ID, RecordID := src.RecordID, Code := src.Code, Name := src.Name,
    Type_ := src.Type_, Sequence := src.Sequence, LevelCode := src.LevelCode,
    ParentID := src.ParentID, IsHide := src.IsHide, Creator := src.Creator }

/-- Modelled from the spec: `util.FillStructs` fills one DTO per row. -/
def FillStructs (src : List menu.Menu) : List schema.Menu :=
  src.map FillStruct

end util

namespace menu

/-- `Model`: the menu storage, holding its database handle. -/
structure Model where
  db : gormplus.DB
deriving DecidableEq, Repr

namespace Model

/-- `getFuncName`: the span name of an operation. -/
def getFuncName (_a : Model) (name : String) : String := "menu." ++ name

/-- `getMenuDB`: a statement on the menu table, on the transaction of the
context or on the connection of the model. -/
def getMenuDB (a : Model) (ctx : Context) : gorm.DB :=
  (common.GetTrans ctx a.db).Model "Menu"

/-- The statement `QueryPage` has built when it calls `FindPage`
(lines 41 to 53 of the source). -/
def QueryPage_db (a : Model) (ctx : Context) (params : schema.MenuPageQueryParam) : gorm.DB :=
  let db := a.getMenuDB ctx
  let db := if params.Code ≠ "" then db.Where "code LIKE ?" [.str ("%" ++ params.Code ++ "%")] else db
  let db := if params.Name ≠ "" then db.Where "name LIKE ?" [.str ("%" ++ params.Name ++ "%")] else db
  let db := if params.Type_ > 0 then db.Where "type=?" [.int params.Type_] else db
  let db := if params.ParentID ≠ "" then db.Where "parent_id=?" [.str params.ParentID] else db
  db

/-- `QueryPage`: the page of menus matching `params`; `FindPage` is the call
`a.db.FindPage(db, pageIndex, pageSize, &items)`, giving the count, the rows
written to `items` and the error. -/
def QueryPage {σ : Type} (FindPage : gorm.DB → Nat → Nat → σ → Int × List Menu × Error)
    (a : Model) (ctx : Context) (params : schema.MenuPageQueryParam)
    (pageIndex pageSize : Nat) (st : σ) : Int × List schema.Menu × Error :=
  let db := a.QueryPage_db ctx params
  let (count, items, err) := FindPage db pageIndex pageSize st
  if err ≠ none then
    (0, [], errors.New "查询分页数据条数发生错误")
  else
    (count, util.FillStructs items, none)

/-- The statement `QueryList` has built when it runs the query
(lines 72 to 90 of the source), ORDER BY included. -/
def QueryList_db (a : Model) (ctx : Context) (params : schema.MenuListQueryParam) : gorm.DB :=
  let db := a.getMenuDB ctx
  let db := if params.LevelCode ≠ "" then db.Where "level_code LIKE ?" [.str (params.LevelCode ++ "%")] else db
  let db := if params.LevelCodes.length > 0 then db.Where "level_code IN(?)" [.strs params.LevelCodes] else db
  let db := if params.Types.length > 0 then db.Where "type IN(?)" [.ints params.Types] else db
  let db := if params.IsHide > 0 then db.Where "is_hide=?" [.int params.IsHide] else db
  let db := if params.ParentID ≠ "" then db.Where "parent_id=?" [.str params.ParentID] else db
  db.Order "sequence,id DESC"

/-- `QueryList`: the menus matching `params`; `Find` is the call
`db.Find(&items)`, giving the rows written to `items` and `result.Error`. -/
def QueryList {σ : Type} (Find : gorm.DB → σ → List Menu × Error)
    (a : Model) (ctx : Context) (params : schema.MenuListQueryParam) (st : σ) :
    List schema.Menu × Error :=
  let (items, err) := Find (a.QueryList_db ctx params) st
  if err ≠ none then
    ([], errors.New "查询列表数据发生错误")
  else
    (util.FillStructs items, none)

/-- The statement `Get` hands to `FindOne`. -/
def Get_db (a : Model) (ctx : Context) (recordID : String) : gorm.DB :=
  (a.getMenuDB ctx).Where "record_id=?" [.str recordID]

/-- `Get`: the menu with the given record ID; `FindOne` is the call
`a.db.FindOne(db, &item)`, giving `ok`, the row written to `item` and the
error. -/
def Get {σ : Type} (FindOne : gorm.DB → σ → Bool × Menu × Error)
    (a : Model) (ctx : Context) (recordID : String) (st : σ) : Option schema.Menu × Error :=
  let (ok, item, err) := FindOne (a.Get_db ctx recordID) st
  if err ≠ none then
    (none, errors.New "查询指定数据发生错误")
  else if !ok then
    (none, none)
  else
    (some (util.FillStruct item), none)

/-- The statement `CheckCode` hands to `Check`. -/
def CheckCode_db (a : Model) (ctx : Context) (code parentID : String) : gorm.DB :=
  (a.getMenuDB ctx).Where "code=? AND parent_id=?" [.str code, .str parentID]

/-- `CheckCode`: whether the code exists; `Check` is the call `a.db.Check(db)`. -/
def CheckCode {σ : Type} (Check : gorm.DB → σ → Bool × Error)
    (a : Model) (ctx : Context) (code parentID : String) (st : σ) : Bool × Error :=
  let db := a.CheckCode_db ctx code parentID
  let (exists_, err) := Check db st
  if err ≠ none then
    (false, errors.New "检查编号是否存在发生错误")
  else
    (exists_, none)

/-- The statement `CheckChild` hands to `Check`. -/
def CheckChild_db (a : Model) (ctx : Context) (parentID : String) : gorm.DB :=
  (a.getMenuDB ctx).Where "parent_id=?" [.str parentID]

/-- `CheckChild`: whether a child exists; `Check` is the call `a.db.Check(db)`. -/
def CheckChild {σ : Type} (Check : gorm.DB → σ → Bool × Error)
    (a : Model) (ctx : Context) (parentID : String) (st : σ) : Bool × Error :=
  let db := a.CheckChild_db ctx parentID
  let (exists_, err) := Check db st
  if err ≠ none then
    (false, errors.New "检查子级是否存在发生错误")
  else
    (exists_, none)

/-- The record `Create` hands to the database: the fields of `item`, with
the creator read from the context (lines 153 to 155 of the source). -/
def Create_menu (ctx : Context) (item : schema.Menu) : Menu :=
  let menu := util.FillEntity item
  { menu with Creator := (gcontext.FromUserID ctx).1 }

/-- `Create`: inserts the menu; `dbCreate` is the call `db.Create(menu)`,
giving the database after the call and `result.Error`. -/
def Create {σ : Type} (dbCreate : gorm.DB → Menu → σ → σ × Error)
    (a : Model) (ctx : Context) (item : schema.Menu) (st : σ) : σ × Error :=
  let menu := Create_menu ctx item
  let (st1, err) := dbCreate (a.getMenuDB ctx) menu st
  if err ≠ none then
    (st1, errors.New "创建数据发生错误")
  else
    (st1, none)

/-- The statement `Update` runs `Updates(menu)` on. -/
def Update_db (a : Model) (ctx : Context) (recordID : String) : gorm.DB :=
  ((a.getMenuDB ctx).Where "record_id=?" [.str recordID]).Omit ["record_id", "creator"]

/-- `Update`: updates the menu with the given record ID; `Updates` is the
call `db.Updates(menu)`. -/
def Update {σ : Type} (Updates : gorm.DB → Menu → σ → σ × Error)
    (a : Model) (ctx : Context) (recordID : String) (item : schema.Menu) (st : σ) : σ × Error :=
  let menu := util.FillEntity item
  let (st1, err) := Updates (a.Update_db ctx recordID) menu st
  if err ≠ none then
    (st1, errors.New "更新数据发生错误")
  else
    (st1, none)

/-- The statement `UpdateLevelCode` and `Delete` run on. -/
def byRecordID_db (a : Model) (ctx : Context) (recordID : String) : gorm.DB :=
  (a.getMenuDB ctx).Where "record_id=?" [.str recordID]

/-- `UpdateLevelCode`: sets the level code; `dbUpdate` is the call
`db.Update("level_code", levelCode)`. -/
def UpdateLevelCode {σ : Type} (dbUpdate : gorm.DB → String → gorm.Arg → σ → σ × Error)
    (a : Model) (ctx : Context) (recordID levelCode : String) (st : σ) : σ × Error :=
  let (st1, err) := dbUpdate (a.byRecordID_db ctx recordID) "level_code" (.str levelCode) st
  if err ≠ none then
    (st1, errors.New "更新分级码发生错误")
  else
    (st1, none)

/-- `Delete`: deletes the menu with the given record ID; `dbDelete` is the
call `db.Delete(Menu{})`. -/
def Delete {σ : Type} (dbDelete : gorm.DB → σ → σ × Error)
    (a : Model) (ctx : Context) (recordID : String) (st : σ) : σ × Error :=
  let (st1, err) := dbDelete (a.byRecordID_db ctx recordID) st
  if err ≠ none then
    (st1, errors.New "删除数据发生错误")
  else
    (st1, none)

end Model

end menu

/-! ## A reference database for the statements the model issues

The sources stop at the calls into `gormplus` and `gorm`.  To speak about
stored records, the part of SQL the model uses is given its standard meaning
over a table held as a list of rows: conjunctions of `column=?`,
`column LIKE ?` and `column IN(?)`, `ORDER BY` lists, single-column and
struct updates, deletion.  String comparison is exact (a binary collation)
and the table holds the live rows. -/

namespace memdb

open menu

/-- The columns of the menu table. -/
inductive Column where
  | id | record_id | code | name | type_ | sequence | level_code | parent_id | is_hide | creator
deriving DecidableEq, Repr

/-- A column value. -/
inductive Val where
  | str (s : String)
  | int (i : Int)
deriving DecidableEq, Repr

namespace Column

/-- Every column, in declaration order. -/
def all : List Column :=
  [id, record_id, code, name, type_, sequence, level_code, parent_id, is_hide, creator]

/-- The column name in SQL. -/
def dbName : Column → String
  | id => "id"
  | record_id => "record_id"
  | code => "code"
  | name => "name"
  | type_ => "type"
  | sequence => "sequence"
  | level_code => "level_code"
  | parent_id => "parent_id"
  | is_hide => "is_hide"
  | creator => "creator"

/-- The name of the Go field mapped to the column. -/
def fieldName : Column → String
  | id => "ID"
  | record_id => "RecordID"
  | code => "Code"
  | name => "Name"
  | type_ => "Type"
  | sequence => "Sequence"
  | level_code => "LevelCode"
  | parent_id => "ParentID"
  | is_hide => "IsHide"
  | creator => "Creator"

/-- The column with the given SQL name. -/
def ofName (s : String) : Option Column :=
  all.find? (fun c => c.dbName == s)

/-- The value of a column in a row. -/
def get (c : Column) (m : Menu) : Val :=
  match c with
  | id => .int m.ID
  | record_id => .str m.RecordID
  | code => .str m.Code
  | name => .str m.Name
  | type_ => .int m.Type_
  | sequence => .int m.Sequence
  | level_code => .str m.LevelCode
  | parent_id => .str m.ParentID
  | is_hide => .int m.IsHide
  | creator => .str m.Creator

/-- Stores a value in a column of a row; `none` when the value is not of the
type of the column. -/
def set (c : Column) (v : Val) (m : Menu) : Option Menu :=
  match c, v with
  | id, .int i => if 0 ≤ i then some { m with ID := i.toNat } else none
  | record_id, .str s => some { m with RecordID := s }
  | code, .str s => some { m with Code := s }
  | name, .str s => some { m with Name := s }
  | type_, .int i => some { m with Type_ := i }
  | sequence, .int i => some { m with Sequence := i }
  | level_code, .str s => some { m with LevelCode := s }
  | parent_id, .str s => some { m with ParentID := s }
  | is_hide, .int i => some { m with IsHide := i }
  | creator, .str s => some { m with Creator := s }
  | _, _ => none

/-- Copies one column from `src` into `dst`. -/
def copy (c : Column) (src dst : Menu) : Menu :=
  match c with
  | id => { dst with ID := src.ID }
  | record_id => { dst with RecordID := src.RecordID }
  | code => { dst with Code := src.Code }
  | name => { dst with Name := src.Name }
  | type_ => { dst with Type_ := src.Type_ }
  | sequence => { dst with Sequence := src.Sequence }
  | level_code => { dst with LevelCode := src.LevelCode }
  | parent_id => { dst with ParentID := src.ParentID }
  | is_hide => { dst with IsHide := src.IsHide }
  | creator => { dst with Creator := src.Creator }

end Column

/-- The zero value of the Go type: what a struct update skips. -/
def Val.isBlank : Val → Bool
  | .str s => s == ""
  | .int i => i == 0

/-- Whether two values have the same type. -/
def Val.sameKind : Val → Val → Bool
  | .str _, .str _ => true
  | .int _, .int _ => true
  | _, _ => false

/-- Comparison of two values of one column. -/
def Val.compare : Val → Val → Ordering
  | .int a, .int b => Ord.compare a b
  | .str a, .str b => Ord.compare a b
  | .int _, .str _ => .lt
  | .str _, .int _ => .gt

/-- The comparison of one condition. -/
inductive Cmp where
  | eq | like | isIn
deriving DecidableEq, Repr

/-- One comparison of a WHERE template: `column=?`, `column LIKE ?` or
`column IN(?)`. -/
structure Atom where
  column : Column
  cmp : Cmp
deriving DecidableEq, Repr

/-- Characters of a column name. -/
def isIdent (c : Char) : Bool := c.isAlphanum || c == '_'

/-- Cuts a template at every ` AND `. -/
def splitAnd : List Char → List (List Char)
  | [] => [[]]
  | ' ' :: 'A' :: 'N' :: 'D' :: ' ' :: rest => [] :: splitAnd rest
  | c :: rest =>
    match splitAnd rest with
    | [] => [[c]]
    | h :: t => (c :: h) :: t

/-- Reads one comparison. -/
def parseAtom (s : List Char) : Option Atom :=
  match Column.ofName (String.mk (s.takeWhile isIdent)) with
  | none => none
  | some c =>
    let rest := s.dropWhile isIdent
    if rest = ['=', '?'] then some ⟨c, .eq⟩
    else if rest = [' ', 'L', 'I', 'K', 'E', ' ', '?'] then some ⟨c, .like⟩
    else if rest = [' ', 'I', 'N', '(', '?', ')'] then some ⟨c, .isIn⟩
    else none

/-- Reads a WHERE template: comparisons joined by ` AND `. -/
def parseWhere (query : String) : Option (List Atom) :=
  (splitAnd query.toList).mapM parseAtom

/-- Whether `f` holds of the list or of one of its tails. -/
def anyTail (f : List Char → Bool) : List Char → Bool
  | [] => f []
  | c :: t => f (c :: t) || anyTail f t

/-- SQL `LIKE`: `%` stands for any run of characters, `_` for one. -/
def likeMatch : List Char → List Char → Bool
  | [], s => s.isEmpty
  | p :: ps, s =>
    if p = '%' then anyTail (likeMatch ps) s
    else
      match s with
      | [] => false
      | c :: t => (p == '_' || p == c) && likeMatch ps t

/-- The test one comparison makes on a row, once its value is bound; `none`
when the value does not fit the column. -/
def compileAtom (a : Atom) (arg : gorm.Arg) : Option (Menu → Bool) :=
  match a.cmp, arg with
  | .eq, .str y =>
    if (a.column.get Menu.zero).sameKind (.str y) then some (fun m => a.column.get m == .str y) else none
  | .eq, .int y =>
    if (a.column.get Menu.zero).sameKind (.int y) then some (fun m => a.column.get m == .int y) else none
  | .like, .str y =>
    some (fun m =>
      match a.column.get m with
      | .str x => likeMatch y.toList x.toList
      | .int _ => false)
  | .isIn, .strs l =>
    some (fun m =>
      match a.column.get m with
      | .str x => l.contains x
      | .int _ => false)
  | .isIn, .ints l =>
    some (fun m =>
      match a.column.get m with
      | .int x => l.contains x
      | .str _ => false)
  | _, _ => none

/-- Binds the values to the comparisons, one each, in order. -/
def compileAtoms : List Atom → List gorm.Arg → Option (Menu → Bool)
  | [], [] => some (fun _ => true)
  | a :: as, v :: vs =>
    match compileAtom a v, compileAtoms as vs with
    | some f, some g => some (fun m => f m && g m)
    | _, _ => none
  | _, _ => none

/-- The test of one `Where` clause; `none` when the clause is malformed. -/
def compileCond (c : gorm.Cond) : Option (Menu → Bool) :=
  match parseWhere c.query with
  | none => none
  | some atoms => compileAtoms atoms c.args

/-- The test of all the `Where` clauses of a statement together. -/
def compileWheres : List gorm.Cond → Option (Menu → Bool)
  | [] => some (fun _ => true)
  | c :: cs =>
    match compileCond c, compileWheres cs with
    | some f, some g => some (fun m => f m && g m)
    | _, _ => none

/-- Cuts an ORDER BY list at every comma. -/
def splitComma : List Char → List (List Char)
  | [] => [[]]
  | c :: rest =>
    if c = ',' then [] :: splitComma rest
    else
      match splitComma rest with
      | [] => [[c]]
      | h :: t => (c :: h) :: t

/-- Reads one ORDER BY item: a column, ascending unless followed by `DESC`;
the flag is true for descending. -/
def parseOrderItem (s : List Char) : Option (Column × Bool) :=
  match Column.ofName (String.mk (s.takeWhile isIdent)) with
  | none => none
  | some c =>
    let rest := s.dropWhile isIdent
    if rest = [] then some (c, false)
    else if rest = [' ', 'A', 'S', 'C'] then some (c, false)
    else if rest = [' ', 'D', 'E', 'S', 'C'] then some (c, true)
    else none

/-- Reads all the `Order` clauses of a statement into one list of keys. -/
def parseOrders : List String → Option (List (Column × Bool))
  | [] => some []
  | o :: os =>
    match (splitComma o.toList).mapM parseOrderItem, parseOrders os with
    | some ks, some rest => some (ks ++ rest)
    | _, _ => none

/-- Compares two rows by the keys, the first key that differs deciding. -/
def cmpKeys : List (Column × Bool) → Menu → Menu → Ordering
  | [], _, _ => .eq
  | (c, desc) :: ks, a, b =>
    match Val.compare (c.get a) (c.get b) with
    | .lt => if desc then .gt else .lt
    | .gt => if desc then .lt else .gt
    | .eq => cmpKeys ks a b

/-- Whether `a` may come before `b` under the keys. -/
def keysLE (ks : List (Column × Bool)) (a b : Menu) : Bool :=
  cmpKeys ks a b != .gt

/-- Inserts a row into a list ordered by the keys, after its equals. -/
def insertBy (ks : List (Column × Bool)) (x : Menu) : List Menu → List Menu
  | [] => [x]
  | y :: ys => if keysLE ks y x then y :: insertBy ks x ys else x :: y :: ys

/-- Orders rows by the keys, keeping equal rows in table order. -/
def orderBy (ks : List (Column × Bool)) (rows : List Menu) : List Menu :=
  rows.foldl (fun acc x => insertBy ks x acc) []

/-- The database: the rows of the menu table and, while the database is
failing, the error every call reports. -/
structure Database where
  rows : List Menu
  fault : Option String
deriving DecidableEq, Repr

/-- The error of a statement the database rejects. -/
def sqlError : String := "sql: statement rejected"

/-- Modelled from the spec: `gormplus.DB.Check` (absent from the sources)
counts the rows the statement selects and reports whether there is any. -/
def Check (q : gorm.DB) (d : Database) : Bool × Error :=
  match d.fault with
  | some e => (false, some e)
  | none =>
    match compileWheres q.wheres with
    | none => (false, some sqlError)
    | some p => (decide ((d.rows.filter p).length > 0), none)

/-- Rows selected by a statement, in the order it asks for. -/
def Find (q : gorm.DB) (d : Database) : List Menu × Error :=
  match d.fault with
  | some e => ([], some e)
  | none =>
    match compileWheres q.wheres, parseOrders q.orders with
    | some p, some ks => (orderBy ks (d.rows.filter p), none)
    | _, _ => ([], some sqlError)

/-- Modelled from the spec: `gormplus.DB.FindOne` (absent from the sources)
fetches the first row the statement selects, by primary key after the keys of
the statement; no row is `ok = false` with no error. -/
def FindOne (q : gorm.DB) (d : Database) : Bool × Menu × Error :=
  match d.fault with
  | some e => (false, Menu.zero, some e)
  | none =>
    match compileWheres q.wheres, parseOrders q.orders with
    | some p, some ks =>
      match orderBy (ks ++ [(Column.id, false)]) (d.rows.filter p) with
      | [] => (false, Menu.zero, none)
      | r :: _ => (true, r, none)
    | _, _ => (false, Menu.zero, some sqlError)

/-- Whether a struct update leaves the column out: named in `Omit`, by
column or by field name. -/
def omitted (omits : List String) (c : Column) : Bool :=
  omits.contains c.dbName || omits.contains c.fieldName

/-- The row after a struct update: every column that is not omitted and
whose new value is not the zero value is overwritten. -/
def applyUpdates (omits : List String) (value : Menu) (row : Menu) : Menu :=
  Column.all.foldl
    (fun r c => if omitted omits c || (c.get value).isBlank then r else c.copy value r) row

/-- `db.Updates(value)` with a struct: updates the non-zero, non-omitted
fields of the rows the statement selects. -/
def Updates (q : gorm.DB) (value : Menu) (d : Database) : Database × Error :=
  match d.fault with
  | some e => (d, some e)
  | none =>
    match compileWheres q.wheres with
    | none => (d, some sqlError)
    | some p =>
      ({ d with rows := d.rows.map (fun r => if p r then applyUpdates q.omits value r else r) }, none)

/-- The column value a bound argument stands for. -/
def argVal : gorm.Arg → Option Val
  | .str s => some (.str s)
  | .int i => some (.int i)
  | _ => none

/-- `db.Update(column, value)`: sets one column of the rows the statement
selects. -/
def Update (q : gorm.DB) (column : String) (value : gorm.Arg) (d : Database) : Database × Error :=
  match d.fault with
  | some e => (d, some e)
  | none =>
    match compileWheres q.wheres, Column.ofName column, argVal value with
    | some p, some c, some v =>
      match c.set v Menu.zero with
      | none => (d, some sqlError)
      | some _ =>
        ({ d with rows := d.rows.map (fun r => if p r then (c.set v r).getD r else r) }, none)
    | _, _, _ => (d, some sqlError)

/-- `db.Delete(Menu{})`: removes the rows the statement selects. -/
def Delete (q : gorm.DB) (d : Database) : Database × Error :=
  match d.fault with
  | some e => (d, some e)
  | none =>
    match compileWheres q.wheres with
    | none => (d, some sqlError)
    | some p => ({ d with rows := d.rows.filter (fun r => !p r) }, none)

end memdb

/-! ## Package `router` -/

namespace gin

/-- One registered route: method, path relative to the group, handler, and
the title recorded with it. -/
structure Route (H : Type) where
  method : String
  path : String
  handler : H
  name : String

/-- A `*gin.RouterGroup`: the routes registered on it, in order. -/
structure RouterGroup (H : Type) where
  routes : List (Route H)

/-- `group.Handle(method, relativePath, handler)`. -/
def RouterGroup.Handle {H : Type} (g : RouterGroup H) (method relativePath : String)
    (handler : H) (name : String) : RouterGroup H :=
  { routes := g.routes ++ [⟨method, relativePath, handler, name⟩] }

end gin

namespace ctl

/-- Modelled from the spec: the login controller `ctl.Login` (package `ctl` is
absent from the sources), as the four handlers `APILoginRouter` takes from
it. -/
structure Login (H : Type) where
  Login : H
  Logout : H
  GetCurrentUserInfo : H
  QueryCurrentUserMenus : H

end ctl

namespace router

/-- Modelled from the spec: the helper `GET` of package `router` (absent from
the sources) registers the handler on the group under the method GET. -/
def GET {H : Type} (g : gin.RouterGroup H) (relativePath : String) (handler : H)
    (name : String) : gin.RouterGroup H :=
  g.Handle "GET" relativePath handler name

/-- Modelled from the spec: the helper `POST` of package `router` (absent from
the sources) registers the handler on the group under the method POST. -/
def POST {H : Type} (g : gin.RouterGroup H) (relativePath : String) (handler : H)
    (name : String) : gin.RouterGroup H :=
  g.Handle "POST" relativePath handler name

/-- `APILoginRouter`: registers the login routes. -/
def APILoginRouter {H : Type} (g : gin.RouterGroup H) (c : ctl.Login H) : gin.RouterGroup H :=
  let g := POST g "/login" c.Login "用户登录"
  let g := POST g "/logout" c.Logout "用户登出"
  let g := GET g "/current/user" c.GetCurrentUserInfo "获取当前用户信息"
  let g := GET g "/current/menus" c.QueryCurrentUserMenus "查询当前用户菜单"
  g

end router

/-! ## Sample data -/

namespace sample

/-- A model on connection 0. -/
def model : menu.Model := { db := { id := 0 } }

/-- A context without transaction, holding the user ID `u1`. -/
def ctx : Context := { trans := none, userID := some "u1" }

/-- A root menu. -/
def root : menu.Menu :=
  { ID := 1, RecordID := "r1", Code := "sys", Name := "System", Type_ := 10, Sequence := 2,
    LevelCode := "01", ParentID := "", IsHide := 0, Creator := "admin" }

/-- A child of `root` with code `user`. -/
def child : menu.Menu :=
  { ID := 2, RecordID := "r2", Code := "user", Name := "Users", Type_ := 20, Sequence := 1,
    LevelCode := "0101", ParentID := "r1", IsHide := 0, Creator := "admin" }

/-- A menu with code `user` again, under another parent. -/
def other : menu.Menu :=
  { ID := 3, RecordID := "r3", Code := "user", Name := "Accounts", Type_ := 20, Sequence := 1,
    LevelCode := "0201", ParentID := "r9", IsHide := 1, Creator := "bob" }

/-- A database holding the three menus, not failing. -/
def db : memdb.Database := { rows := [root, child, other], fault := none }

/-- An item to write: new name, sequence and level code, and values for the
record ID and the creator that must not be taken over. -/
def item : schema.Menu :=
  { ID := 0, RecordID := "zz", Code := "", Name := "People", Type_ := 0, Sequence := 5,
    LevelCode := "0102", ParentID := "", IsHide := 0, Creator := "mallory" }

end sample

/-! ## Theorems -/

section Statements

open menu

theorem getMenuDB_wheres (a : Model) (ctx : Context) : (a.getMenuDB ctx).wheres = [] := by
  unfold Model.getMenuDB common.GetTrans gorm.DB.Model gormplus.DB.session
  cases ctx.trans <;> rfl

theorem getMenuDB_orders (a : Model) (ctx : Context) : (a.getMenuDB ctx).orders = [] := by
  unfold Model.getMenuDB common.GetTrans gorm.DB.Model gormplus.DB.session
  cases ctx.trans <;> rfl

theorem getMenuDB_omits (a : Model) (ctx : Context) : (a.getMenuDB ctx).omits = [] := by
  unfold Model.getMenuDB common.GetTrans gorm.DB.Model gormplus.DB.session
  cases ctx.trans <;> rfl

theorem Where_wheres (s : gorm.DB) (q : String) (args : List gorm.Arg) :
    (s.Where q args).wheres = s.wheres ++ [⟨q, args⟩] := rfl

theorem Where_orders (s : gorm.DB) (q : String) (args : List gorm.Arg) :
    (s.Where q args).orders = s.orders := rfl

theorem Where_omits (s : gorm.DB) (q : String) (args : List gorm.Arg) :
    (s.Where q args).omits = s.omits := rfl

/-- C1: the statement `QueryPage` hands to `FindPage` carries the `code LIKE`
condition iff `Code` is non-empty, the `name LIKE` condition iff `Name` is
non-empty, `type=?` iff `Type > 0`, `parent_id=?` iff `ParentID` is
non-empty, in this order and nothing else (no ORDER BY, no omitted column);
with all four fields zero it carries no condition; and `QueryPage` is the call
of `FindPage` on that statement with `pageIndex` and `pageSize` unchanged,
followed by the mapping of its results. -/
theorem QueryPage_statement {σ : Type}
    (FindPage : gorm.DB → Nat → Nat → σ → Int × List Menu × Error)
    (a : Model) (ctx : Context) (params : schema.MenuPageQueryParam)
    (pageIndex pageSize : Nat) (st : σ) :
    (a.QueryPage_db ctx params).wheres =
        (if params.Code ≠ "" then [⟨"code LIKE ?", [.str ("%" ++ params.Code ++ "%")]⟩] else [])
        ++ (if params.Name ≠ "" then [⟨"name LIKE ?", [.str ("%" ++ params.Name ++ "%")]⟩] else [])
        ++ (if params.Type_ > 0 then [⟨"type=?", [.int params.Type_]⟩] else [])
        ++ (if params.ParentID ≠ "" then [⟨"parent_id=?", [.str params.ParentID]⟩] else [])
    ∧ (a.QueryPage_db ctx params).orders = []
    ∧ (a.QueryPage_db ctx params).omits = []
    ∧ (a.QueryPage_db ctx ⟨"", "", 0, ""⟩).wheres = []
    ∧ a.QueryPage FindPage ctx params pageIndex pageSize st =
        (if (FindPage (a.QueryPage_db ctx params) pageIndex pageSize st).2.2 ≠ none then
          (0, [], some "查询分页数据条数发生错误")
        else
          ((FindPage (a.QueryPage_db ctx params) pageIndex pageSize st).1,
           util.FillStructs (FindPage (a.QueryPage_db ctx params) pageIndex pageSize st).2.1,
           none)) := by
  refine ⟨?_, ?_, ?_, ?_, ?_⟩
  · unfold Model.QueryPage_db
    by_cases h1 : params.Code = "" <;> by_cases h2 : params.Name = "" <;>
      by_cases h3 : params.Type_ > 0 <;> by_cases h4 : params.ParentID = "" <;>
      simp [h1, h2, h3, h4, Where_wheres, getMenuDB_wheres]
  · unfold Model.QueryPage_db
    by_cases h1 : params.Code = "" <;> by_cases h2 : params.Name = "" <;>
      by_cases h3 : params.Type_ > 0 <;> by_cases h4 : params.ParentID = "" <;>
      simp [h1, h2, h3, h4, Where_orders, getMenuDB_orders]
  · unfold Model.QueryPage_db
    by_cases h1 : params.Code = "" <;> by_cases h2 : params.Name = "" <;>
      by_cases h3 : params.Type_ > 0 <;> by_cases h4 : params.ParentID = "" <;>
      simp [h1, h2, h3, h4, Where_omits, getMenuDB_omits]
  · simp [Model.QueryPage_db, getMenuDB_wheres]
  · unfold Model.QueryPage errors.New
    rfl

/-! ### Ordering of the reference database -/

open memdb in
theorem mem_insertBy (ks : List (Column × Bool)) (x z : Menu) (l : List Menu) :
    z ∈ insertBy ks x l ↔ z = x ∨ z ∈ l := by
  induction l with
  | nil => simp [insertBy]
  | cons y ys ih =>
    unfold insertBy
    split
    · simp only [List.mem_cons, ih]
      tauto
    · simp only [List.mem_cons]

open memdb in
theorem mem_foldl_insertBy (ks : List (Column × Bool)) (z : Menu) (rows acc : List Menu) :
    z ∈ rows.foldl (fun acc x => insertBy ks x acc) acc ↔ z ∈ acc ∨ z ∈ rows := by
  induction rows generalizing acc with
  | nil => simp
  | cons x xs ih =>
    simp only [List.foldl_cons, ih, mem_insertBy, List.mem_cons]
    tauto

open memdb in
theorem mem_orderBy (ks : List (Column × Bool)) (z : Menu) (rows : List Menu) :
    z ∈ orderBy ks rows ↔ z ∈ rows := by
  unfold orderBy
  rw [mem_foldl_insertBy]
  simp

open memdb in
theorem pairwise_insertBy (ks : List (Column × Bool))
    (total : ∀ a b, keysLE ks a b = true ∨ keysLE ks b a = true)
    (trans : ∀ a b c, keysLE ks a b = true → keysLE ks b c = true → keysLE ks a c = true)
    (x : Menu) (l : List Menu) (h : l.Pairwise (fun a b => keysLE ks a b = true)) :
    (insertBy ks x l).Pairwise (fun a b => keysLE ks a b = true) := by
  induction l with
  | nil => simp [insertBy]
  | cons y ys ih =>
    rw [List.pairwise_cons] at h
    unfold insertBy
    split
    · rename_i hyx
      rw [List.pairwise_cons]
      refine ⟨?_, ih h.2⟩
      intro z hz
      rcases (mem_insertBy ks x z ys).1 hz with rfl | hz
      · exact hyx
      · exact h.1 z hz
    · rename_i hyx
      have hxy : keysLE ks x y = true := by
        rcases total x y with h1 | h1
        · exact h1
        · exact absurd h1 hyx
      rw [List.pairwise_cons]
      refine ⟨?_, List.pairwise_cons.2 h⟩
      intro z hz
      rcases List.mem_cons.1 hz with rfl | hz
      · exact hxy
      · exact trans x y z hxy (h.1 z hz)

open memdb in
theorem pairwise_orderBy (ks : List (Column × Bool))
    (total : ∀ a b, keysLE ks a b = true ∨ keysLE ks b a = true)
    (trans : ∀ a b c, keysLE ks a b = true → keysLE ks b c = true → keysLE ks a c = true)
    (rows : List Menu) :
    (orderBy ks rows).Pairwise (fun a b => keysLE ks a b = true) := by
  unfold orderBy
  suffices h : ∀ acc : List Menu, acc.Pairwise (fun a b => keysLE ks a b = true) →
      (rows.foldl (fun acc x => insertBy ks x acc) acc).Pairwise
        (fun a b => keysLE ks a b = true) from h [] List.Pairwise.nil
  induction rows with
  | nil => intro acc h; exact h
  | cons x xs ih =>
    intro acc h
    exact ih _ (pairwise_insertBy ks total trans x acc h)

open memdb in
theorem keysLE_sequence_id (a b : Menu) :
    keysLE [(Column.sequence, false), (Column.id, true)] a b = true ↔
      (a.Sequence < b.Sequence ∨ (a.Sequence = b.Sequence ∧ b.ID ≤ a.ID)) := by
  simp only [keysLE, cmpKeys, Column.get, Val.compare, compare, compareOfLessAndEq,
    Bool.false_eq_true, if_false, if_true]
  rcases lt_trichotomy a.Sequence b.Sequence with h | h | h
  · simp [h]
    decide
  · rcases lt_trichotomy a.ID b.ID with h2 | h2 | h2
    · have h3 : ¬ b.ID ≤ a.ID := by omega
      simp [h, h2, h3]
      decide
    · simp [h, h2]
      decide
    · have h3 : ¬ a.ID < b.ID := by omega
      have h4 : a.ID ≠ b.ID := by omega
      have h5 : b.ID ≤ a.ID := by omega
      simp [h, h3, h4, h5]
      decide
  · have h3 : ¬ a.Sequence < b.Sequence := by omega
    have h4 : a.Sequence ≠ b.Sequence := by omega
    simp [h3, h4]
    decide

open memdb in
theorem seqID_total (a b : Menu) :
    keysLE [(Column.sequence, false), (Column.id, true)] a b = true ∨
      keysLE [(Column.sequence, false), (Column.id, true)] b a = true := by
  rw [keysLE_sequence_id, keysLE_sequence_id]
  omega

open memdb in
theorem seqID_trans (a b c : Menu)
    (hab : keysLE [(Column.sequence, false), (Column.id, true)] a b = true)
    (hbc : keysLE [(Column.sequence, false), (Column.id, true)] b c = true) :
    keysLE [(Column.sequence, false), (Column.id, true)] a c = true := by
  rw [keysLE_sequence_id] at *
  omega

theorem QueryList_db_wheres (a : Model) (ctx : Context) (params : schema.MenuListQueryParam) :
    (a.QueryList_db ctx params).wheres =
      (if params.LevelCode ≠ "" then [⟨"level_code LIKE ?", [.str (params.LevelCode ++ "%")]⟩] else [])
      ++ (if params.LevelCodes ≠ [] then [⟨"level_code IN(?)", [.strs params.LevelCodes]⟩] else [])
      ++ (if params.Types ≠ [] then [⟨"type IN(?)", [.ints params.Types]⟩] else [])
      ++ (if params.IsHide > 0 then [⟨"is_hide=?", [.int params.IsHide]⟩] else [])
      ++ (if params.ParentID ≠ "" then [⟨"parent_id=?", [.str params.ParentID]⟩] else []) := by
  unfold Model.QueryList_db
  by_cases h1 : params.LevelCode = "" <;> by_cases h2 : params.LevelCodes = [] <;>
    by_cases h3 : params.Types = [] <;> by_cases h4 : params.IsHide > 0 <;>
    by_cases h5 : params.ParentID = "" <;>
    simp [h1, h2, h3, h4, h5, Where_wheres, getMenuDB_wheres, gorm.DB.Order, List.length_pos]

theorem QueryList_db_orders (a : Model) (ctx : Context) (params : schema.MenuListQueryParam) :
    (a.QueryList_db ctx params).orders = ["sequence,id DESC"] := by
  unfold Model.QueryList_db
  by_cases h1 : params.LevelCode = "" <;> by_cases h2 : params.LevelCodes = [] <;>
    by_cases h3 : params.Types = [] <;> by_cases h4 : params.IsHide > 0 <;>
    by_cases h5 : params.ParentID = "" <;>
    simp [h1, h2, h3, h4, h5, Where_orders, getMenuDB_orders, gorm.DB.Order, List.length_pos]

/-! ### The conditions of the model, read by the reference database -/

open memdb in
theorem compileCond_recordID (v : String) :
    compileCond ⟨"record_id=?", [.str v]⟩
      = some (fun m => (Val.str m.RecordID == Val.str v) && true) := rfl

open memdb in
theorem compileCond_parentID (v : String) :
    compileCond ⟨"parent_id=?", [.str v]⟩
      = some (fun m => (Val.str m.ParentID == Val.str v) && true) := rfl

open memdb in
theorem compileCond_code_parentID (c v : String) :
    compileCond ⟨"code=? AND parent_id=?", [.str c, .str v]⟩
      = some (fun m => (Val.str m.Code == Val.str c) && ((Val.str m.ParentID == Val.str v) && true)) := rfl

open memdb in
theorem compileCond_type (v : Int) :
    (compileCond ⟨"type=?", [.int v]⟩).isSome = true := rfl

open memdb in
theorem compileCond_isHide (v : Int) :
    (compileCond ⟨"is_hide=?", [.int v]⟩).isSome = true := rfl

open memdb in
theorem compileCond_levelCode_like (v : String) :
    (compileCond ⟨"level_code LIKE ?", [.str v]⟩).isSome = true := rfl

open memdb in
theorem compileCond_levelCode_in (l : List String) :
    (compileCond ⟨"level_code IN(?)", [.strs l]⟩).isSome = true := rfl

open memdb in
theorem compileCond_type_in (l : List Int) :
    (compileCond ⟨"type IN(?)", [.ints l]⟩).isSome = true := rfl

open memdb in
theorem compileWheres_append (l₁ l₂ : List gorm.Cond)
    (h₁ : (compileWheres l₁).isSome = true) (h₂ : (compileWheres l₂).isSome = true) :
    (compileWheres (l₁ ++ l₂)).isSome = true := by
  induction l₁ with
  | nil => simpa using h₂
  | cons c cs ih =>
    simp only [List.cons_append, compileWheres] at h₁ ⊢
    cases hc : compileCond c with
    | none => simp [hc] at h₁
    | some f =>
      cases hcs : compileWheres cs with
      | none => simp [hc, hcs] at h₁
      | some g =>
        have := ih (by simp [hcs])
        cases hall : compileWheres (cs ++ l₂) with
        | none => simp [hall] at this
        | some k => simp

open memdb in
theorem compileWheres_single (c : gorm.Cond) (h : (compileCond c).isSome = true) :
    (compileWheres [c]).isSome = true := by
  cases hc : compileCond c with
  | none => simp [hc] at h
  | some f => simp [compileWheres, hc]

open memdb in
theorem compileWheres_optional (b : Prop) [Decidable b] (c : gorm.Cond)
    (h : (compileCond c).isSome = true) :
    (compileWheres (if b then [c] else [])).isSome = true := by
  split
  · exact compileWheres_single c h
  · rfl

open memdb in
theorem QueryList_db_compiles (a : Model) (ctx : Context) (params : schema.MenuListQueryParam) :
    (compileWheres (a.QueryList_db ctx params).wheres).isSome = true := by
  rw [QueryList_db_wheres]
  refine compileWheres_append _ _ (compileWheres_append _ _ (compileWheres_append _ _
    (compileWheres_append _ _ ?_ ?_) ?_) ?_) ?_
  · exact compileWheres_optional _ _ (compileCond_levelCode_like _)
  · exact compileWheres_optional _ _ (compileCond_levelCode_in _)
  · exact compileWheres_optional _ _ (compileCond_type_in _)
  · exact compileWheres_optional _ _ (compileCond_isHide _)
  · exact compileWheres_optional _ _ (compileCond_parentID _ ▸ rfl)

open memdb in
theorem QueryList_db_keys (a : Model) (ctx : Context) (params : schema.MenuListQueryParam) :
    parseOrders (a.QueryList_db ctx params).orders
      = some [(Column.sequence, false), (Column.id, true)] := by
  rw [QueryList_db_orders]
  decide

open memdb in
theorem Find_QueryList_db (a : Model) (ctx : Context) (params : schema.MenuListQueryParam)
    (rows : List Menu) :
    ∃ p : Menu → Bool, memdb.Find (a.QueryList_db ctx params) ⟨rows, none⟩ =
      (orderBy [(Column.sequence, false), (Column.id, true)] (rows.filter p), none) := by
  have hw := QueryList_db_compiles a ctx params
  cases hp : compileWheres (a.QueryList_db ctx params).wheres with
  | none => simp [hp] at hw
  | some p =>
    refine ⟨p, ?_⟩
    simp only [memdb.Find, hp, QueryList_db_keys]

/-- C2: the statement `QueryList` runs carries the `level_code LIKE` condition
(value `LevelCode` followed by `%`, nothing in front) iff `LevelCode` is
non-empty, `level_code IN(?)` iff `LevelCodes` is non-empty, `type IN(?)` iff
`Types` is non-empty, `is_hide=?` iff `IsHide > 0`, `parent_id=?` iff
`ParentID` is non-empty, and nothing else; its ORDER BY is always
`sequence,id DESC`, that is `sequence` ascending then `id` descending;
`QueryList` is the call of `Find` on that statement followed by the mapping
of its results; and on the reference database the call succeeds whenever the
database is not failing and the menus returned are ordered by `Sequence`
ascending, then `ID` descending. -/
theorem QueryList_statement {σ : Type} (Find : gorm.DB → σ → List Menu × Error)
    (a : Model) (ctx : Context) (params : schema.MenuListQueryParam) (st : σ)
    (rows : List Menu) (fault : Option String) :
    (a.QueryList_db ctx params).wheres =
        (if params.LevelCode ≠ "" then [⟨"level_code LIKE ?", [.str (params.LevelCode ++ "%")]⟩] else [])
        ++ (if params.LevelCodes ≠ [] then [⟨"level_code IN(?)", [.strs params.LevelCodes]⟩] else [])
        ++ (if params.Types ≠ [] then [⟨"type IN(?)", [.ints params.Types]⟩] else [])
        ++ (if params.IsHide > 0 then [⟨"is_hide=?", [.int params.IsHide]⟩] else [])
        ++ (if params.ParentID ≠ "" then [⟨"parent_id=?", [.str params.ParentID]⟩] else [])
    ∧ (a.QueryList_db ctx params).orders = ["sequence,id DESC"]
    ∧ memdb.parseOrders (a.QueryList_db ctx params).orders
        = some [(memdb.Column.sequence, false), (memdb.Column.id, true)]
    ∧ a.QueryList Find ctx params st =
        (if (Find (a.QueryList_db ctx params) st).2 ≠ none then
          ([], some "查询列表数据发生错误")
        else
          (util.FillStructs (Find (a.QueryList_db ctx params) st).1, none))
    ∧ (a.QueryList memdb.Find ctx params ⟨rows, none⟩).2 = none
    ∧ (a.QueryList memdb.Find ctx params ⟨rows, fault⟩).1.Pairwise
        (fun x y => x.Sequence < y.Sequence ∨ (x.Sequence = y.Sequence ∧ y.ID ≤ x.ID)) := by
  refine ⟨QueryList_db_wheres a ctx params, QueryList_db_orders a ctx params,
    QueryList_db_keys a ctx params, ?_, ?_, ?_⟩
  · unfold Model.QueryList errors.New
    rfl
  · obtain ⟨p, hp⟩ := Find_QueryList_db a ctx params rows
    simp [Model.QueryList, hp]
  · cases fault with
    | some e => simp [Model.QueryList, memdb.Find, errors.New]
    | none =>
      obtain ⟨p, hp⟩ := Find_QueryList_db a ctx params rows
      have hs := pairwise_orderBy _ seqID_total seqID_trans (rows.filter p)
      simp only [Model.QueryList, hp, util.FillStructs]
      simp only [ne_eq, not_true_eq_false, if_false]
      rw [List.pairwise_map]
      refine hs.imp ?_
      intro x y hxy
      exact (keysLE_sequence_id x y).1 hxy

/-! ### Errors -/

open memdb in
theorem compileWheres_byRecordID (a : Model) (ctx : Context) (recordID : String) :
    compileWheres (a.byRecordID_db ctx recordID).wheres
      = some (fun m => ((Val.str m.RecordID == Val.str recordID) && true) && true) := by
  simp only [Model.byRecordID_db, Where_wheres, getMenuDB_wheres, List.nil_append, compileWheres,
    compileCond_recordID]

open memdb in
theorem compileWheres_Update_db (a : Model) (ctx : Context) (recordID : String) :
    compileWheres (a.Update_db ctx recordID).wheres
      = some (fun m => ((Val.str m.RecordID == Val.str recordID) && true) && true) := by
  simp only [Model.Update_db, gorm.DB.Omit, Where_wheres, getMenuDB_wheres, List.nil_append,
    compileWheres, compileCond_recordID]

/-- C3: each of the nine operations returns a non-nil error iff the database
call it makes reports one, and then, whatever the text of that error, the
results are the zero values with the fixed message of the operation
(`QueryPage`: 0 and no list; `QueryList`, `Get`: nothing; `CheckCode`,
`CheckChild`: false).  On the reference database, when it is not failing,
`Update`, `UpdateLevelCode` and `Delete` return nil whatever the rows are,
so also when no row has the record ID. -/
theorem errors_follow_database {σ : Type}
    (FindPage : gorm.DB → Nat → Nat → σ → Int × List Menu × Error)
    (Find : gorm.DB → σ → List Menu × Error)
    (FindOne : gorm.DB → σ → Bool × Menu × Error)
    (Check : gorm.DB → σ → Bool × Error)
    (dbCreate : gorm.DB → Menu → σ → σ × Error)
    (Updates : gorm.DB → Menu → σ → σ × Error)
    (dbUpdate : gorm.DB → String → gorm.Arg → σ → σ × Error)
    (dbDelete : gorm.DB → σ → σ × Error)
    (a : Model) (ctx : Context) (st : σ)
    (pageParams : schema.MenuPageQueryParam) (pageIndex pageSize : Nat)
    (listParams : schema.MenuListQueryParam)
    (recordID code parentID levelCode : String) (item : schema.Menu)
    (rows : List Menu) :
    (((a.QueryPage FindPage ctx pageParams pageIndex pageSize st).2.2 ≠ none ↔
        (FindPage (a.QueryPage_db ctx pageParams) pageIndex pageSize st).2.2 ≠ none)
      ∧ ((FindPage (a.QueryPage_db ctx pageParams) pageIndex pageSize st).2.2 = none ∨
        a.QueryPage FindPage ctx pageParams pageIndex pageSize st
          = (0, [], some "查询分页数据条数发生错误")))
    ∧ (((a.QueryList Find ctx listParams st).2 ≠ none ↔
        (Find (a.QueryList_db ctx listParams) st).2 ≠ none)
      ∧ ((Find (a.QueryList_db ctx listParams) st).2 = none ∨
        a.QueryList Find ctx listParams st = ([], some "查询列表数据发生错误")))
    ∧ (((a.Get FindOne ctx recordID st).2 ≠ none ↔
        (FindOne (a.Get_db ctx recordID) st).2.2 ≠ none)
      ∧ ((FindOne (a.Get_db ctx recordID) st).2.2 = none ∨
        a.Get FindOne ctx recordID st = (none, some "查询指定数据发生错误")))
    ∧ (((a.CheckCode Check ctx code parentID st).2 ≠ none ↔
        (Check (a.CheckCode_db ctx code parentID) st).2 ≠ none)
      ∧ ((Check (a.CheckCode_db ctx code parentID) st).2 = none ∨
        a.CheckCode Check ctx code parentID st = (false, some "检查编号是否存在发生错误")))
    ∧ (((a.CheckChild Check ctx parentID st).2 ≠ none ↔
        (Check (a.CheckChild_db ctx parentID) st).2 ≠ none)
      ∧ ((Check (a.CheckChild_db ctx parentID) st).2 = none ∨
        a.CheckChild Check ctx parentID st = (false, some "检查子级是否存在发生错误")))
    ∧ (((a.Create dbCreate ctx item st).2 ≠ none ↔
        (dbCreate (a.getMenuDB ctx) (Model.Create_menu ctx item) st).2 ≠ none)
      ∧ ((dbCreate (a.getMenuDB ctx) (Model.Create_menu ctx item) st).2 = none ∨
        (a.Create dbCreate ctx item st).2 = some "创建数据发生错误"))
    ∧ (((a.Update Updates ctx recordID item st).2 ≠ none ↔
        (Updates (a.Update_db ctx recordID) (util.FillEntity item) st).2 ≠ none)
      ∧ ((Updates (a.Update_db ctx recordID) (util.FillEntity item) st).2 = none ∨
        (a.Update Updates ctx recordID item st).2 = some "更新数据发生错误"))
    ∧ (((a.UpdateLevelCode dbUpdate ctx recordID levelCode st).2 ≠ none ↔
        (dbUpdate (a.byRecordID_db ctx recordID) "level_code" (.str levelCode) st).2 ≠ none)
      ∧ ((dbUpdate (a.byRecordID_db ctx recordID) "level_code" (.str levelCode) st).2 = none ∨
        (a.UpdateLevelCode dbUpdate ctx recordID levelCode st).2 = some "更新分级码发生错误"))
    ∧ (((a.Delete dbDelete ctx recordID st).2 ≠ none ↔
        (dbDelete (a.byRecordID_db ctx recordID) st).2 ≠ none)
      ∧ ((dbDelete (a.byRecordID_db ctx recordID) st).2 = none ∨
        (a.Delete dbDelete ctx recordID st).2 = some "删除数据发生错误"))
    ∧ (a.Update memdb.Updates ctx recordID item ⟨rows, none⟩).2 = none
    ∧ (a.UpdateLevelCode memdb.Update ctx recordID levelCode ⟨rows, none⟩).2 = none
    ∧ (a.Delete memdb.Delete ctx recordID ⟨rows, none⟩).2 = none := by
  refine ⟨?_, ?_, ?_, ?_, ?_, ?_, ?_, ?_, ?_, ?_, ?_, ?_⟩
  · rcases h : FindPage (a.QueryPage_db ctx pageParams) pageIndex pageSize st with ⟨c, items, err⟩
    cases err <;> simp [Model.QueryPage, h, errors.New]
  · rcases h : Find (a.QueryList_db ctx listParams) st with ⟨items, err⟩
    cases err <;> simp [Model.QueryList, h, errors.New]
  · rcases h : FindOne (a.Get_db ctx recordID) st with ⟨ok, it, err⟩
    cases err <;> cases ok <;> simp [Model.Get, h, errors.New]
  · rcases h : Check (a.CheckCode_db ctx code parentID) st with ⟨b, err⟩
    cases err <;> simp [Model.CheckCode, h, errors.New]
  · rcases h : Check (a.CheckChild_db ctx parentID) st with ⟨b, err⟩
    cases err <;> simp [Model.CheckChild, h, errors.New]
  · rcases h : dbCreate (a.getMenuDB ctx) (Model.Create_menu ctx item) st with ⟨s1, err⟩
    cases err <;> simp [Model.Create, h, errors.New]
  · rcases h : Updates (a.Update_db ctx recordID) (util.FillEntity item) st with ⟨s1, err⟩
    cases err <;> simp [Model.Update, h, errors.New]
  · rcases h : dbUpdate (a.byRecordID_db ctx recordID) "level_code" (.str levelCode) st
      with ⟨s1, err⟩
    cases err <;> simp [Model.UpdateLevelCode, h, errors.New]
  · rcases h : dbDelete (a.byRecordID_db ctx recordID) st with ⟨s1, err⟩
    cases err <;> simp [Model.Delete, h, errors.New]
  · simp [Model.Update, memdb.Updates, compileWheres_Update_db]
  · have hc : memdb.Column.ofName "level_code" = some memdb.Column.level_code := by decide
    simp [Model.UpdateLevelCode, memdb.Update, compileWheres_byRecordID, hc, memdb.argVal,
      memdb.Column.set]
  · simp [Model.Delete, memdb.Delete, compileWheres_byRecordID]

/-! ### Existence checks -/

theorem filter_length_pos (p : Menu → Bool) (rows : List Menu) :
    (rows.filter p).length > 0 ↔ ∃ r ∈ rows, p r = true := by
  induction rows with
  | nil => simp
  | cons x xs ih =>
    by_cases hx : p x = true
    · simp [List.filter_cons, hx]
    · simp only [List.filter_cons, hx, List.mem_cons]
      simp only [Bool.false_eq_true, if_false, ih]
      constructor
      · rintro ⟨r, hr, hpr⟩
        exact ⟨r, Or.inr hr, hpr⟩
      · rintro ⟨r, hr | hr, hpr⟩
        · exact absurd (hr ▸ hpr) hx
        · exact ⟨r, hr, hpr⟩

open memdb in
theorem Check_CheckCode_db (a : Model) (ctx : Context) (code parentID : String)
    (rows : List Menu) :
    memdb.Check (a.CheckCode_db ctx code parentID) ⟨rows, none⟩ =
      (decide (∃ r ∈ rows, r.Code = code ∧ r.ParentID = parentID), none) := by
  simp only [memdb.Check, Model.CheckCode_db, Where_wheres, getMenuDB_wheres, List.nil_append,
    compileWheres, compileCond_code_parentID, filter_length_pos]
  simp

open memdb in
theorem Check_CheckChild_db (a : Model) (ctx : Context) (parentID : String)
    (rows : List Menu) :
    memdb.Check (a.CheckChild_db ctx parentID) ⟨rows, none⟩ =
      (decide (∃ r ∈ rows, r.ParentID = parentID), none) := by
  simp only [memdb.Check, Model.CheckChild_db, Where_wheres, getMenuDB_wheres, List.nil_append,
    compileWheres, compileCond_parentID, filter_length_pos]
  simp

theorem Check_fault (q : gorm.DB) (rows : List Menu) (e : String) :
    memdb.Check q ⟨rows, some e⟩ = (false, some e) := rfl

/-- C4: the statement `CheckCode` checks carries the single condition
`code=? AND parent_id=?` bound to `code` and `parentID`; when the database
call does not fail, `CheckCode` returns true iff some stored row has both
that code and that parent ID, with a nil error; rows with that code under
other parents only leave it false. -/
theorem CheckCode_per_parent (a : Model) (ctx : Context) (code parentID : String)
    (d : memdb.Database)
    (hok : (memdb.Check (a.CheckCode_db ctx code parentID) d).2 = none) :
    (a.CheckCode_db ctx code parentID).wheres
        = [⟨"code=? AND parent_id=?", [.str code, .str parentID]⟩]
    ∧ ((a.CheckCode memdb.Check ctx code parentID d).1 = true ↔
        ∃ r ∈ d.rows, r.Code = code ∧ r.ParentID = parentID)
    ∧ ((∀ r ∈ d.rows, r.Code = code → r.ParentID ≠ parentID) →
        (a.CheckCode memdb.Check ctx code parentID d).1 = false)
    ∧ (a.CheckCode memdb.Check ctx code parentID d).2 = none := by
  obtain ⟨rows, fault⟩ := d
  cases fault with
  | some e => simp [Check_fault] at hok
  | none =>
    refine ⟨by simp [Model.CheckCode_db, Where_wheres, getMenuDB_wheres], ?_, ?_, ?_⟩
    · simp [Model.CheckCode, Check_CheckCode_db]
    · intro hno
      simp only [Model.CheckCode, Check_CheckCode_db]
      simp only [ne_eq, not_true_eq_false, if_false, decide_eq_false_iff_not]
      rintro ⟨r, hr, hc, hp⟩
      exact hno r hr hc hp
    · simp [Model.CheckCode, Check_CheckCode_db]

/-- Witness for C4 on the sample database: the code `user` exists under the
parent `r1`; under the parent `r1` the code `sys` does not, although the
root menu has it. -/
theorem CheckCode_per_parent_witness :
    (memdb.Check (sample.model.CheckCode_db sample.ctx "user" "r1") sample.db).2 = none
    ∧ ((sample.model.CheckCode memdb.Check sample.ctx "user" "r1" sample.db).1 = true ↔
      ∃ r ∈ sample.db.rows, r.Code = "user" ∧ r.ParentID = "r1")
    ∧ (sample.model.CheckCode memdb.Check sample.ctx "user" "r1" sample.db).1 = true
    ∧ (∃ r ∈ sample.db.rows, r.Code = "sys")
    ∧ (sample.model.CheckCode memdb.Check sample.ctx "sys" "r1" sample.db).1 = false :=
  ⟨by decide,
    (CheckCode_per_parent sample.model sample.ctx "user" "r1" sample.db (by decide)).2.1,
    by decide, by decide,
    (CheckCode_per_parent sample.model sample.ctx "sys" "r1" sample.db (by decide)).2.2.1
      (by decide)⟩

/-- C5: the statement `CheckChild` checks carries the single condition
`parent_id=?` bound to `parentID`; when the database call does not fail,
`CheckChild` returns true iff some stored row has that parent ID; and on one
database state, `CheckCode(code, parentID)` true implies
`CheckChild(parentID)` true, for every code. -/
theorem CheckChild_presence (a : Model) (ctx : Context) (code parentID : String)
    (d : memdb.Database)
    (hok : (memdb.Check (a.CheckChild_db ctx parentID) d).2 = none) :
    (a.CheckChild_db ctx parentID).wheres = [⟨"parent_id=?", [.str parentID]⟩]
    ∧ ((a.CheckChild memdb.Check ctx parentID d).1 = true ↔
        ∃ r ∈ d.rows, r.ParentID = parentID)
    ∧ (a.CheckChild memdb.Check ctx parentID d).2 = none
    ∧ ((a.CheckCode memdb.Check ctx code parentID d).1 = true →
        (a.CheckChild memdb.Check ctx parentID d).1 = true) := by
  obtain ⟨rows, fault⟩ := d
  cases fault with
  | some e => simp [Check_fault] at hok
  | none =>
    refine ⟨by simp [Model.CheckChild_db, Where_wheres, getMenuDB_wheres], ?_, ?_, ?_⟩
    · simp [Model.CheckChild, Check_CheckChild_db]
    · simp [Model.CheckChild, Check_CheckChild_db]
    · simp only [Model.CheckCode, Model.CheckChild, Check_CheckCode_db, Check_CheckChild_db]
      simp only [ne_eq, not_true_eq_false, if_false, decide_eq_true_eq]
      rintro ⟨r, hr, -, hp⟩
      exact ⟨r, hr, hp⟩

/-- Witness for C5 on the sample database: `r1` has a child, found through
the code `user`. -/
theorem CheckChild_presence_witness :
    (memdb.Check (sample.model.CheckChild_db sample.ctx "r1") sample.db).2 = none
    ∧ (sample.model.CheckCode memdb.Check sample.ctx "user" "r1" sample.db).1 = true
    ∧ (sample.model.CheckChild memdb.Check sample.ctx "r1" sample.db).1 = true :=
  ⟨by decide, by decide,
    (CheckChild_presence sample.model sample.ctx "user" "r1" sample.db (by decide)).2.2.2
      (by decide)⟩

/-! ### Reading one record -/

open memdb in
theorem compileWheres_Get_db (a : Model) (ctx : Context) (recordID : String) :
    compileWheres (a.Get_db ctx recordID).wheres
      = some (fun m => ((Val.str m.RecordID == Val.str recordID) && true) && true) := by
  simp only [Model.Get_db, Where_wheres, getMenuDB_wheres, List.nil_append, compileWheres,
    compileCond_recordID]

open memdb in
theorem FindOne_Get_db (a : Model) (ctx : Context) (recordID : String) (rows : List Menu) :
    memdb.FindOne (a.Get_db ctx recordID) ⟨rows, none⟩ =
      match orderBy [(Column.id, false)] (rows.filter (fun m => m.RecordID = recordID)) with
      | [] => (false, Menu.zero, none)
      | r :: _ => (true, r, none) := by
  have ho : (a.Get_db ctx recordID).orders = [] := by
    simp [Model.Get_db, Where_orders, getMenuDB_orders]
  have hf : (fun m : Menu => ((Val.str m.RecordID == Val.str recordID) && true) && true)
      = (fun m : Menu => decide (m.RecordID = recordID)) := by
    funext m
    by_cases h : m.RecordID = recordID
    · simp [h]
    · have hv : Val.str m.RecordID ≠ Val.str recordID := fun hxy => h (Val.str.inj hxy)
      simp [h, hv]
  simp only [memdb.FindOne, compileWheres_Get_db, ho, parseOrders, List.nil_append, hf]

theorem FindOne_fault (q : gorm.DB) (rows : List Menu) (e : String) :
    memdb.FindOne q ⟨rows, some e⟩ = (false, Menu.zero, some e) := rfl

/-- C6: the statement `Get` hands to `FindOne` carries the single condition
`record_id=?` bound to `recordID`; `Get` returns the fixed error when
`FindOne` reports one, nothing and no error when `FindOne` found no row,
and the DTO filled from the row otherwise.  On the reference database, when
the call does not fail: if no stored row has the record ID, `Get` returns
(nil, nil); if some row has it, `Get` returns a menu filled from such a row
and a nil error. -/
theorem Get_by_recordID {σ : Type} (FindOne : gorm.DB → σ → Bool × Menu × Error)
    (a : Model) (ctx : Context) (recordID : String) (st : σ) (d : memdb.Database)
    (hok : (memdb.FindOne (a.Get_db ctx recordID) d).2.2 = none) :
    (a.Get_db ctx recordID).wheres = [⟨"record_id=?", [.str recordID]⟩]
    ∧ a.Get FindOne ctx recordID st =
        (if (FindOne (a.Get_db ctx recordID) st).2.2 ≠ none then
          (none, some "查询指定数据发生错误")
        else if (FindOne (a.Get_db ctx recordID) st).1 = false then (none, none)
        else (some (util.FillStruct (FindOne (a.Get_db ctx recordID) st).2.1), none))
    ∧ ((∀ r ∈ d.rows, r.RecordID ≠ recordID) →
        a.Get memdb.FindOne ctx recordID d = (none, none))
    ∧ ((∃ r ∈ d.rows, r.RecordID = recordID) →
        ∃ r ∈ d.rows, r.RecordID = recordID ∧
          a.Get memdb.FindOne ctx recordID d = (some (util.FillStruct r), none)) := by
  obtain ⟨rows, fault⟩ := d
  cases fault with
  | some e => simp [FindOne_fault] at hok
  | none =>
    refine ⟨by simp [Model.Get_db, Where_wheres, getMenuDB_wheres], ?_, ?_, ?_⟩
    · rcases h : FindOne (a.Get_db ctx recordID) st with ⟨ok, it, err⟩
      cases err <;> cases ok <;> simp [Model.Get, h, errors.New]
    · intro hno
      have hnil : rows.filter (fun m => m.RecordID = recordID) = [] := by
        rw [List.filter_eq_nil_iff]
        intro r hr
        simpa using hno r hr
      simp [Model.Get, FindOne_Get_db, hnil, memdb.orderBy]
    · rintro ⟨r0, hr0, hid0⟩
      have hmem : r0 ∈ memdb.orderBy [(memdb.Column.id, false)]
          (rows.filter (fun m => m.RecordID = recordID)) := by
        rw [mem_orderBy, List.mem_filter]
        exact ⟨hr0, by simpa using hid0⟩
      cases hl : memdb.orderBy [(memdb.Column.id, false)]
          (rows.filter (fun m => m.RecordID = recordID)) with
      | nil => simp [hl] at hmem
      | cons r rest =>
        have hr : r ∈ memdb.orderBy [(memdb.Column.id, false)]
            (rows.filter (fun m => m.RecordID = recordID)) := by
          rw [hl]
          exact List.mem_cons_self r rest
        rw [mem_orderBy, List.mem_filter] at hr
        refine ⟨r, hr.1, by simpa using hr.2, ?_⟩
        simp [Model.Get, FindOne_Get_db, hl]

/-- Witness for C6 on the sample database: no row has the record ID `r7`,
and `Get` returns (nil, nil); the row `child` has the record ID `r2`, and
`Get` returns the menu filled from it. -/
theorem Get_by_recordID_witness :
    (memdb.FindOne (sample.model.Get_db sample.ctx "r7") sample.db).2.2 = none
    ∧ (∀ r ∈ sample.db.rows, r.RecordID ≠ "r7")
    ∧ sample.model.Get memdb.FindOne sample.ctx "r7" sample.db = (none, none)
    ∧ sample.model.Get memdb.FindOne sample.ctx "r2" sample.db
        = (some (util.FillStruct sample.child), none)
    ∧ (∃ r ∈ sample.db.rows, r.RecordID = "r2" ∧
        sample.model.Get memdb.FindOne sample.ctx "r2" sample.db
          = (some (util.FillStruct r), none)) :=
  ⟨by decide, by decide,
    (Get_by_recordID memdb.FindOne sample.model sample.ctx "r7" sample.db sample.db
      (by decide)).2.2.1 (by decide),
    by decide,
    (Get_by_recordID memdb.FindOne sample.model sample.ctx "r2" sample.db sample.db
      (by decide)).2.2.2 ⟨sample.child, by decide, by decide⟩⟩

/-! ### Writes -/

theorem recordID_test (recordID : String) :
    (fun m : Menu => ((memdb.Val.str m.RecordID == memdb.Val.str recordID) && true) && true)
      = (fun m : Menu => decide (m.RecordID = recordID)) := by
  funext m
  by_cases h : m.RecordID = recordID
  · simp [h]
  · have hv : memdb.Val.str m.RecordID ≠ memdb.Val.str recordID :=
      fun hxy => h (memdb.Val.str.inj hxy)
    simp [h, hv]

open memdb in
theorem Update_levelCode (a : Model) (ctx : Context) (recordID levelCode : String)
    (rows : List Menu) :
    memdb.Update (a.byRecordID_db ctx recordID) "level_code" (.str levelCode) ⟨rows, none⟩ =
      (⟨rows.map (fun r => if r.RecordID = recordID then { r with LevelCode := levelCode } else r),
        none⟩, none) := by
  have hc : Column.ofName "level_code" = some Column.level_code := by decide
  simp only [memdb.Update, compileWheres_byRecordID, recordID_test, hc, argVal, Column.set,
    Option.getD_some, decide_eq_true_eq]

theorem Update_fault (q : gorm.DB) (column : String) (value : gorm.Arg) (rows : List Menu)
    (e : String) : memdb.Update q column value ⟨rows, some e⟩ = (⟨rows, some e⟩, some e) := rfl

/-- C8: `UpdateLevelCode(recordID, levelCode)` updates the column
`level_code` on the statement with the single condition `record_id=?`; on
the reference database it leaves every row whose record ID differs from `recordID` unchanged and, in
the other rows, every column but `level_code` unchanged (no row is added or
removed); after a call that returns nil every row with that record ID has
`level_code` equal to `levelCode`; and the call returns nil whenever the
database is not failing. -/
theorem UpdateLevelCode_frame (a : Model) (ctx : Context) (recordID levelCode : String)
    (d : memdb.Database) :
    (a.byRecordID_db ctx recordID).wheres = [⟨"record_id=?", [.str recordID]⟩]
    ∧ List.Forall₂
        (fun old new => (old.RecordID ≠ recordID → new = old)
          ∧ { new with LevelCode := old.LevelCode } = old)
        d.rows (a.UpdateLevelCode memdb.Update ctx recordID levelCode d).1.rows
    ∧ ((a.UpdateLevelCode memdb.Update ctx recordID levelCode d).2 = none →
        ∀ row ∈ (a.UpdateLevelCode memdb.Update ctx recordID levelCode d).1.rows,
          row.RecordID = recordID → row.LevelCode = levelCode)
    ∧ (d.fault = none → (a.UpdateLevelCode memdb.Update ctx recordID levelCode d).2 = none) := by
  obtain ⟨rows, fault⟩ := d
  cases fault with
  | some e =>
    have hr : a.UpdateLevelCode memdb.Update ctx recordID levelCode ⟨rows, some e⟩
        = (⟨rows, some e⟩, some "更新分级码发生错误") := by
      simp [Model.UpdateLevelCode, Update_fault, errors.New]
    rw [hr]
    refine ⟨by simp [Model.byRecordID_db, Where_wheres, getMenuDB_wheres], ?_, by simp, by simp⟩
    rw [List.forall₂_same]
    intro x _
    exact ⟨fun _ => rfl, rfl⟩
  | none =>
    have hr : a.UpdateLevelCode memdb.Update ctx recordID levelCode ⟨rows, none⟩
        = (⟨rows.map (fun r =>
            if r.RecordID = recordID then { r with LevelCode := levelCode } else r), none⟩,
          none) := by
      simp [Model.UpdateLevelCode, Update_levelCode]
    rw [hr]
    refine ⟨by simp [Model.byRecordID_db, Where_wheres, getMenuDB_wheres], ?_, ?_, fun _ => rfl⟩
    · rw [List.forall₂_map_right_iff, List.forall₂_same]
      intro x _
      by_cases hx : x.RecordID = recordID
      · rw [if_pos hx]
        exact ⟨fun hne => absurd hx hne, rfl⟩
      · rw [if_neg hx]
        exact ⟨fun _ => rfl, rfl⟩
    · intro _ row hrow hid
      simp only [List.mem_map] at hrow
      obtain ⟨x, _, hx⟩ := hrow
      by_cases hxid : x.RecordID = recordID
      · rw [if_pos hxid] at hx
        rw [← hx]
      · rw [if_neg hxid] at hx
        rw [← hx] at hid
        exact absurd hid hxid

/-- Witness for C8 on the sample database: `UpdateLevelCode("r2", "0909")`
returns nil and changes the level code of the row `r2`, nothing else. -/
theorem UpdateLevelCode_frame_witness :
    (sample.model.UpdateLevelCode memdb.Update sample.ctx "r2" "0909" sample.db).2 = none
    ∧ (sample.model.UpdateLevelCode memdb.Update sample.ctx "r2" "0909" sample.db).1.rows
        = [sample.root, { sample.child with LevelCode := "0909" }, sample.other]
    ∧ ∀ row ∈ (sample.model.UpdateLevelCode memdb.Update sample.ctx "r2" "0909" sample.db).1.rows,
        row.RecordID = "r2" → row.LevelCode = "0909" :=
  ⟨by decide, by decide,
    (UpdateLevelCode_frame sample.model sample.ctx "r2" "0909" sample.db).2.2.1 (by decide)⟩

open memdb in
theorem foldl_copy_keeps {α : Type} (f : Menu → α) (omits : List String) (value : Menu)
    (h : ∀ c r, omitted omits c = false → f (Column.copy c value r) = f r)
    (cs : List Column) (row : Menu) :
    f (cs.foldl
      (fun r c => if omitted omits c || (c.get value).isBlank then r else c.copy value r) row)
      = f row := by
  induction cs generalizing row with
  | nil => rfl
  | cons c cs ih =>
    simp only [List.foldl_cons]
    rw [ih]
    split
    · rfl
    · rename_i hc
      apply h
      cases ho : omitted omits c with
      | false => rfl
      | true => simp [ho] at hc

open memdb in
theorem applyUpdates_recordID (value row : Menu) :
    (applyUpdates ["record_id", "creator"] value row).RecordID = row.RecordID := by
  unfold applyUpdates
  apply foldl_copy_keeps (fun m => m.RecordID)
  intro c r hc
  cases c <;> first | rfl | exact absurd hc (by decide)

open memdb in
theorem applyUpdates_creator (value row : Menu) :
    (applyUpdates ["record_id", "creator"] value row).Creator = row.Creator := by
  unfold applyUpdates
  apply foldl_copy_keeps (fun m => m.Creator)
  intro c r hc
  cases c <;> first | rfl | exact absurd hc (by decide)

open memdb in
theorem Updates_Update_db (a : Model) (ctx : Context) (recordID : String) (value : Menu)
    (rows : List Menu) :
    memdb.Updates (a.Update_db ctx recordID) value ⟨rows, none⟩ =
      (⟨rows.map (fun r =>
          if r.RecordID = recordID then applyUpdates ["record_id", "creator"] value r else r),
        none⟩, none) := by
  have ho : (a.Update_db ctx recordID).omits = ["record_id", "creator"] := rfl
  simp only [memdb.Updates, compileWheres_Update_db, recordID_test, ho, decide_eq_true_eq]

theorem Updates_fault (q : gorm.DB) (value : Menu) (rows : List Menu) (e : String) :
    memdb.Updates q value ⟨rows, some e⟩ = (⟨rows, some e⟩, some e) := rfl

/-- C9: the statement `Update` runs omits the columns `record_id` and
`creator`; on the reference database, `Update(recordID, item)` keeps the
record ID and the creator of every stored row, whatever `item` carries, and
leaves every row whose record ID differs from `recordID` unchanged (no row
is added or removed). -/
theorem Update_frame (a : Model) (ctx : Context) (recordID : String) (item : schema.Menu)
    (d : memdb.Database) :
    (a.Update_db ctx recordID).omits = ["record_id", "creator"]
    ∧ (a.Update_db ctx recordID).wheres = [⟨"record_id=?", [.str recordID]⟩]
    ∧ List.Forall₂
        (fun old new => new.RecordID = old.RecordID ∧ new.Creator = old.Creator
          ∧ (old.RecordID ≠ recordID → new = old))
        d.rows (a.Update memdb.Updates ctx recordID item d).1.rows := by
  refine ⟨rfl, by simp [Model.Update_db, gorm.DB.Omit, Where_wheres, getMenuDB_wheres], ?_⟩
  obtain ⟨rows, fault⟩ := d
  cases fault with
  | some e =>
    have hr : a.Update memdb.Updates ctx recordID item ⟨rows, some e⟩
        = (⟨rows, some e⟩, some "更新数据发生错误") := by
      simp [Model.Update, Updates_fault, errors.New]
    rw [hr, List.forall₂_same]
    intro x _
    exact ⟨rfl, rfl, fun _ => rfl⟩
  | none =>
    have hr : a.Update memdb.Updates ctx recordID item ⟨rows, none⟩
        = (⟨rows.map (fun r =>
            if r.RecordID = recordID then
              memdb.applyUpdates ["record_id", "creator"] (util.FillEntity item) r
            else r), none⟩, none) := by
      simp [Model.Update, Updates_Update_db]
    rw [hr, List.forall₂_map_right_iff, List.forall₂_same]
    intro x _
    by_cases hx : x.RecordID = recordID
    · rw [if_pos hx]
      exact ⟨applyUpdates_recordID _ _, applyUpdates_creator _ _, fun hne => absurd hx hne⟩
    · rw [if_neg hx]
      exact ⟨rfl, rfl, fun _ => rfl⟩

/-- Witness for C9 on the sample database: `Update("r2", item)` changes the
name of the row `r2` and neither its record ID nor its creator, although
`item` carries other values for both, and leaves the row `r1` as it was. -/
theorem Update_frame_witness :
    (sample.model.Update memdb.Updates sample.ctx "r2" sample.item sample.db).1.rows
        = [sample.root,
           { sample.child with Name := "People", Sequence := 5, LevelCode := "0102" },
           sample.other]
    ∧ List.Forall₂
        (fun old new => new.RecordID = old.RecordID ∧ new.Creator = old.Creator
          ∧ (old.RecordID ≠ "r2" → new = old))
        sample.db.rows
        (sample.model.Update memdb.Updates sample.ctx "r2" sample.item sample.db).1.rows :=
  ⟨by decide, (Update_frame sample.model sample.ctx "r2" sample.item sample.db).2.2⟩

theorem Create_menu_creator (ctx : Context) (item : schema.Menu) :
    (Model.Create_menu ctx item).Creator = ctx.userID.getD "" := by
  unfold Model.Create_menu gcontext.FromUserID
  cases ctx.userID <;> rfl

/-- C10: `Create` hands to the database exactly one record (shown on a
database that records what it is given); its creator is the user ID held in
the context, the empty string when the context holds none, whatever creator
`item` carries; every other field is the field of `item`. -/
theorem Create_record {σ : Type} (dbCreate : gorm.DB → Menu → σ → σ × Error)
    (a : Model) (ctx : Context) (item : schema.Menu) (st : σ) (creator : String) :
    a.Create dbCreate ctx item st =
        ((dbCreate (a.getMenuDB ctx) (Model.Create_menu ctx item) st).1,
         if (dbCreate (a.getMenuDB ctx) (Model.Create_menu ctx item) st).2 ≠ none then
           some "创建数据发生错误"
         else none)
    ∧ (a.Create (fun _ m log => (log ++ [m], none)) ctx item []).1 = [Model.Create_menu ctx item]
    ∧ (Model.Create_menu ctx item).Creator = ctx.userID.getD ""
    ∧ (Model.Create_menu ctx item).Creator = (gcontext.FromUserID ctx).1
    ∧ Model.Create_menu ctx { item with Creator := creator } = Model.Create_menu ctx item
    ∧ (Model.Create_menu ctx item).ID = item.ID
    ∧ (Model.Create_menu ctx item).RecordID = item.RecordID
    ∧ (Model.Create_menu ctx item).Code = item.Code
    ∧ (Model.Create_menu ctx item).Name = item.Name
    ∧ (Model.Create_menu ctx item).Type_ = item.Type_
    ∧ (Model.Create_menu ctx item).Sequence = item.Sequence
    ∧ (Model.Create_menu ctx item).LevelCode = item.LevelCode
    ∧ (Model.Create_menu ctx item).ParentID = item.ParentID
    ∧ (Model.Create_menu ctx item).IsHide = item.IsHide := by
  refine ⟨?_, ?_, Create_menu_creator ctx item, rfl, rfl, rfl, rfl, rfl, rfl, rfl, rfl, rfl, rfl,
    rfl⟩
  · rcases h : dbCreate (a.getMenuDB ctx) (Model.Create_menu ctx item) st with ⟨s1, err⟩
    cases err <;> simp [Model.Create, h, errors.New]
  · simp [Model.Create]

/-! ### Routes -/

/-- C7: `APILoginRouter` adds to the group exactly four routes, in this
order: POST `/login` bound to `Login`, POST `/logout` bound to `Logout`,
GET `/current/user` bound to `GetCurrentUserInfo`, GET `/current/menus`
bound to `QueryCurrentUserMenus`; the four paths are pairwise distinct, so
no path is registered twice and each has one method. -/
theorem APILoginRouter_routes {H : Type} (g : gin.RouterGroup H) (c : ctl.Login H) :
    (router.APILoginRouter g c).routes =
        g.routes ++
          [⟨"POST", "/login", c.Login, "用户登录"⟩,
           ⟨"POST", "/logout", c.Logout, "用户登出"⟩,
           ⟨"GET", "/current/user", c.GetCurrentUserInfo, "获取当前用户信息"⟩,
           ⟨"GET", "/current/menus", c.QueryCurrentUserMenus, "查询当前用户菜单"⟩]
    ∧ (router.APILoginRouter g c).routes.length = g.routes.length + 4
    ∧ ((router.APILoginRouter ⟨[]⟩ c).routes.map (fun r => (r.method, r.path))) =
        [("POST", "/login"), ("POST", "/logout"), ("GET", "/current/user"),
         ("GET", "/current/menus")]
    ∧ ((router.APILoginRouter ⟨[]⟩ c).routes.map (fun r => r.path)).Nodup := by
  refine ⟨?_, ?_, ?_, ?_⟩
  · simp [router.APILoginRouter, router.POST, router.GET, gin.RouterGroup.Handle]
  · simp [router.APILoginRouter, router.POST, router.GET, gin.RouterGroup.Handle]
  · rfl
  · simp only [router.APILoginRouter, router.POST, router.GET, gin.RouterGroup.Handle,
      List.nil_append, List.cons_append, List.map_cons, List.map_nil]
    decide

end Statements

end GinAdmin
